import Mathlib

/-!
Verification of the trajectory-windowing and rollout logic of the MetaRLforPnP
repository (src/train.py and src/dataset/datasets.py), as a shallow embedding.

Torch tensors and numpy arrays are modelled as (nested) lists of rationals;
Python dicts as association lists; Python exceptions (KeyError, IndexError,
ValueError) as `none`; `np.random.randint(0, n)` as an abstract draw function
constrained to return a value in `[0, n)`.
-/

/-- Python object model: nested arrays of rationals.  Embeds the torch tensors
and model outputs of `Trainer._get_latest_action` (src/train.py), where only
the indexing structure matters. -/
inductive PyObj where
  | leaf : ℚ → PyObj
  | arr : List PyObj → PyObj

/-- Python sequence-index resolution: a negative index counts from the end of
the sequence (`x[-1]` is the last element). -/
def pyIndex (len : Nat) (i : Int) : Int :=
  if i < 0 then (len : Int) + i else i

/-- Python indexing `o[i]` on a nested array; out-of-range access (IndexError)
and indexing a scalar become `none`. -/
def pyGet : PyObj → Int → Option PyObj
  | PyObj.leaf _, _ => none
  | PyObj.arr xs, i =>
    if h : 0 ≤ pyIndex xs.length i ∧ pyIndex xs.length i < (xs.length : Int) then
      some (xs.get ⟨(pyIndex xs.length i).toNat, by omega⟩)
    else none

/-- src/train.py lines 119-122 (`Trainer._get_latest_action`): the slice index
is `-1` once `index >= 3`, and `index` itself below that. -/
def slice_index (index : Nat) : Int :=
  if 3 ≤ index then -1 else (index : Int)

/-- The two-level extraction `x[0][slice_index]` applied to every tensor in
`Trainer._get_latest_action` (src/train.py lines 124-128). -/
def extract2 (si : Int) (o : PyObj) : Option PyObj :=
  (pyGet o 0).bind fun row => pyGet row si

/-- Python dict lookup `d[k]` on an association list (first binding wins,
keys are unique in an actual dict); a missing key (KeyError) becomes `none`. -/
def dictGet : List (String × PyObj) → String → Option PyObj
  | [], _ => none
  | (k2, v2) :: rest, k => if k = k2 then some v2 else dictGet rest k

/-- Python dict assignment `d[k] = v`: replaces the binding of an existing key
in place, appends a new binding otherwise. -/
def dictSet : List (String × PyObj) → String → PyObj → List (String × PyObj)
  | [], k, v => [(k, v)]
  | (k2, v2) :: rest, k, v =>
    if k = k2 then (k, v) :: rest else (k2, v2) :: dictSet rest k v

/-- src/train.py lines 117-129, `Trainer._get_latest_action`: computes the
slice index from `index`, extracts `actions_preds[0][slice_index]`, and
reassigns `action_dict['T']`, `action_dict['mu']`, `action_dict['sigma_d']`
to their `[0][slice_index]` slices (an in-place dict mutation in Python,
returned here as the updated dict).  Any failing lookup or index becomes
`none`. -/
def get_latest_action (action_dict : List (String × PyObj)) (actions_preds : PyObj)
    (index : Nat) : Option (List (String × PyObj) × PyObj) :=
  match extract2 (slice_index index) actions_preds,
      (dictGet action_dict "T").bind (extract2 (slice_index index)),
      (dictGet action_dict "mu").bind (extract2 (slice_index index)),
      (dictGet action_dict "sigma_d").bind (extract2 (slice_index index)) with
  | some preds, some t, some mu, some sd =>
    some (dictSet (dictSet (dictSet action_dict "T" t) "mu" mu) "sigma_d" sd, preds)
  | _, _, _, _ => none

/-- src/dataset/datasets.py line 17: the fixed task enumeration. -/
def tasks : List String :=
  ["2x_5", "2x_10", "2x_15", "4x_5", "4x_10", "4x_15", "8x_5", "8x_10", "8x_15"]

/-- The dict comprehension of src/dataset/datasets.py line 18,
`{task: i for i, task in enumerate(tasks)}`, as a first-match lookup carrying
the running enumeration index (the keys are distinct). -/
def lookupIdx : List String → Nat → String → Option Nat
  | [], _, _ => none
  | t :: ts, i, s => if s = t then some i else lookupIdx ts (i + 1) s

/-- src/dataset/datasets.py lines 17-18 together with the
`encode = lambda s: self.task_tokenizer[s]` lambdas (lines 103 and 153):
task-string lookup; an unknown key (Python KeyError) becomes `none`. -/
def task_tokenizer (s : String) : Option Nat :=
  lookupIdx tasks 0 s

/-- src/dataset/datasets.py line 101 (`TrainingDataset.__getitem__`):
`task = acceleration[0] + '_' + noise_level` — only the first character of
the acceleration string is used. -/
def trainTaskKey (acceleration noise_level : String) : String :=
  String.mk (acceleration.data.take 1) ++ "_" ++ noise_level

/-- src/dataset/datasets.py line 152 (`EvaluationDataset.__getitem__`):
`task = task_str[0] + 'x' + task_str[1:]`, where `task_str` is the
`\d+_\d+` substring extracted from the filename by `extract_task`. -/
def evalTaskKey (task_str : String) : String :=
  String.mk (task_str.data.take 1) ++ "x" ++ String.mk (task_str.data.drop 1)

/-- src/dataset/datasets.py lines 109-113 (`TrainingDataset.__getitem__`,
branch `traj_len >= block_size`): start offset 0 when the lengths are equal,
otherwise `np.random.randint(0, traj_len - block_size)`.  `draw n` models the
numpy call `np.random.randint(0, n)`, whose result lies in `[0, n)`. -/
def sample_start (trajLen blockSize : Nat) (draw : Nat → Nat) : Nat :=
  if trajLen = blockSize then 0 else draw (trajLen - blockSize)

/-- src/dataset/datasets.py lines 72-82 (`TrainingDataset._get_actions`):
one row per step `t` of the window `[a, b)` holding the value of every action
parameter at that step, followed by `pad` all-zero rows of the same width. -/
def get_actions (actionSeqs : List (List ℚ)) (a b pad : Nat) : List (List ℚ) :=
  ((List.range (b - a)).map fun t => actionSeqs.map fun s => s.getD (a + t) 0) ++
    List.replicate pad (List.replicate actionSeqs.length 0)

/-- src/dataset/datasets.py lines 54-70 (`TrainingDataset._get_states`):
the per-step flattened images of the window `[a, b)`, scaled by 255, followed
by `pad` all-zero rows of the same shape. -/
def get_states (stateSeqs : List (List ℚ)) (a b pad : Nat) : List (List ℚ) :=
  (((stateSeqs.drop a).take (b - a)).map fun v => v.map fun q => q / 255) ++
    List.replicate pad (List.replicate (stateSeqs.headD []).length 0)

/-- src/dataset/datasets.py lines 124-127: the local `concat_pad` lambda,
appending `paddingLen` zero rows of the tensor's own row shape. -/
def concat_pad (x : List (List ℚ)) (paddingLen : Nat) : List (List ℚ) :=
  x ++ List.replicate paddingLen (List.replicate (x.headD []).length 0)

/-- The tensors returned by `TrainingDataset.__getitem__`
(src/dataset/datasets.py line 138). -/
structure WindowSample where
  states : List (List ℚ)
  actions : List (List ℚ)
  rtg : List (List ℚ)
  traj_masks : List ℚ
  timesteps : List Nat
  task : List Nat

/-- src/dataset/datasets.py lines 122-138: the `traj_len < block_size` branch
of `TrainingDataset.__getitem__`.  `rtgSeq` is `traj_dict['RTG']` (so
`traj_len = rtgSeq.length`), `actionSeqs` the per-parameter action sequences,
`stateSeqs` the per-step flattened images.  The branch draws no randomness:
it is a plain function of the trajectory record. -/
def paddedWindow (blockSize : Nat) (rtgScale : ℚ) (rtgSeq : List ℚ)
    (actionSeqs stateSeqs : List (List ℚ)) (taskId : Nat) : WindowSample :=
  let trajLen := rtgSeq.length
  let paddingLen := blockSize - trajLen
  { states := get_states stateSeqs 0 trajLen paddingLen
    actions := get_actions actionSeqs 0 trajLen paddingLen
    rtg := concat_pad (rtgSeq.map fun q => [q / rtgScale]) paddingLen
    traj_masks := List.replicate trajLen 1 ++ List.replicate paddingLen 0
    timesteps := List.range blockSize
    task := List.replicate blockSize taskId }

/-- `PyObj.arr [o]`: torch `unsqueeze(dim = 0)` as used in
`EvaluationDataset.get_eval_obs` (src/dataset/datasets.py lines 177-179). -/
def unsqueeze (o : PyObj) : PyObj := PyObj.arr [o]

/-- src/dataset/datasets.py line 172: the first component of the pair returned
by `EvaluationDataset.__getitem__` is the 4-tuple
`(states, rtg, actions, task)`, modelled as a list. -/
def evalPolicyInputs (states rtg actions task : PyObj) : List PyObj :=
  [states, rtg, actions, task]

/-- Python tuple unpacking `a, b, c = xs`: succeeds exactly when `xs` has
three elements; a length mismatch (ValueError) becomes `none`. -/
def unpack3 (xs : List PyObj) : Option (PyObj × PyObj × PyObj) :=
  match xs with
  | [a, b, c] => some (a, b, c)
  | _ => none

/-- src/dataset/datasets.py lines 174-180, `EvaluationDataset.get_eval_obs`:
unpacks the 4-tuple first component of `__getitem__` into three names, then
unsqueezes each. -/
def get_eval_obs (states rtg actions task : PyObj) : Option (PyObj × PyObj × PyObj) :=
  (unpack3 (evalPolicyInputs states rtg actions task)).map
    fun t => (unsqueeze t.1, unsqueeze t.2.1, unsqueeze t.2.2)

/-- The rollout context buffer of `Trainer._run_evaluation` (src/train.py):
the `eval_rtg` buffer contents (index `i` holds `eval_rtg[0, i, 0]`) and the
running `old_reward` variable. -/
structure EvalState where
  evalRtg : Nat → ℚ
  oldReward : ℚ

/-- src/train.py lines 187-193: the slice bounds `(lo, hi)` (inclusive lower,
exclusive upper, as in Python `x[lo:hi]`) applied identically to the four
context tensors (`eval_rtg`, `eval_states`, `eval_timesteps`, `eval_actions`)
when the policy is queried at step `time`.  The growing-phase branch passes
the hardcoded slice `[:4]`. -/
def querySlice (contextLength time : Nat) : Nat × Nat :=
  if time < contextLength then (0, 4) else (time - contextLength, time)

/-- Length of the Python slice `x[lo:hi]` on an axis of size `n`. -/
def sliceLen (n : Nat) (p : Nat × Nat) : Nat := min p.2 n - min p.1 n

/-- The buffer writes performed by one iteration of the rollout loop,
src/train.py lines 171-185: `rtg = reward - old_reward`,
`old_reward = reward`, `scaled_rtg = eval_rtg[0, time-1] - rtg/rtg_scale`,
and (when the iteration does not terminate) `eval_rtg[:, time] = scaled_rtg`.
`reward time` is the reward observed from `env.step` at step `time`. -/
def evalWrite (scale : ℚ) (reward : Nat → ℚ) (time : Nat) (s : EvalState) : EvalState :=
  { evalRtg := fun i =>
      if i = time then s.evalRtg (time - 1) - (reward time - s.oldReward) / scale
      else s.evalRtg i
    oldReward := reward time }

/-- src/train.py lines 170-196, the loop `for time in range(1, max_step+1)` of
`Trainer._run_evaluation`, tracking the state it mutates (`eval_rtg` and
`old_reward`).  The loop returns as soon as `done or time == max_step`, after
updating `old_reward` but before writing the buffer.  `doneSeq time` is the
done flag returned by `env.step` at step `time`; the fuel argument counts the
remaining iterations of the bounded `range`. -/
def runEvalState (scale : ℚ) (reward : Nat → ℚ) (doneSeq : Nat → Bool)
    (maxStep : Nat) : Nat → Nat → EvalState → EvalState
  | 0, _, s => s
  | fuel + 1, time, s =>
    if doneSeq time || time == maxStep then { s with oldReward := reward time }
    else runEvalState scale reward doneSeq maxStep fuel (time + 1)
      (evalWrite scale reward time s)

/-- src/train.py lines 149-196, `Trainer._run_evaluation`: the buffers start
zeroed (lines 158-160), `old_reward` starts as the reward computed from the
reset state (line 166), and the loop runs from `time = 1`. -/
def runEval (scale : ℚ) (reward : Nat → ℚ) (doneSeq : Nat → Bool)
    (maxStep : Nat) : EvalState :=
  runEvalState scale reward doneSeq maxStep maxStep 1
    { evalRtg := fun _ => 0, oldReward := reward 0 }

/-- The in-loop policy-query slices of `Trainer._run_evaluation`
(src/train.py lines 187-193), in order: iteration `time` queries the policy
with `querySlice contextLength time` unless it terminated first (the query at
lines 187-193 sits after the early return of lines 180-181). -/
def evalQueries (doneSeq : Nat → Bool) (maxStep contextLength : Nat) :
    Nat → Nat → List (Nat × Nat)
  | 0, _ => []
  | fuel + 1, time =>
    if doneSeq time || time == maxStep then []
    else querySlice contextLength time ::
      evalQueries doneSeq maxStep contextLength fuel (time + 1)

/-- All policy-query slices of one call of `Trainer._run_evaluation`: the
initial query of line 167 uses the hardcoded slices `[:, :4]`, then the
in-loop queries follow. -/
def evalTrace (doneSeq : Nat → Bool) (maxStep contextLength : Nat) : List (Nat × Nat) :=
  (0, 4) :: evalQueries doneSeq maxStep contextLength maxStep 1

/-- The closed form of the successive `scaled_rtg` values written by the
rollout loop (src/train.py line 174), used to characterise the buffer. -/
def rtgRec (scale : ℚ) (reward : Nat → ℚ) : Nat → ℚ
  | 0 => 0
  | t + 1 => rtgRec scale reward t - (reward (t + 1) - reward t) / scale

/-- Concrete 4-element window used to instantiate the latest-action claims. -/
def windowFour : List PyObj :=
  [PyObj.leaf 0, PyObj.leaf 1, PyObj.leaf 2, PyObj.leaf 3]

/-- Concrete action-parameter bundle (model output dict) with one extra
field, used to instantiate the frame claim. -/
def sampleBundle : List (String × PyObj) :=
  [("T", PyObj.arr [PyObj.arr [PyObj.leaf 1, PyObj.leaf 2]]),
   ("mu", PyObj.arr [PyObj.arr [PyObj.leaf 3, PyObj.leaf 4]]),
   ("sigma_d", PyObj.arr [PyObj.arr [PyObj.leaf 5, PyObj.leaf 6]]),
   ("x0", PyObj.leaf 7)]

/-- The bundle `sampleBundle` after `_get_latest_action` with `index = 0`. -/
def sampleBundleOut : List (String × PyObj) :=
  [("T", PyObj.leaf 1), ("mu", PyObj.leaf 3), ("sigma_d", PyObj.leaf 5),
   ("x0", PyObj.leaf 7)]

/-! ### Helper lemmas -/

theorem getD_replicate_of_lt {α : Type} (n i : Nat) (a d : α) (h : i < n) :
    (List.replicate n a).getD i d = a := by
  rw [List.getD_eq_getElem _ _ (by simpa using h), List.getElem_replicate]

theorem lookupIdx_lt (l : List String) (base : Nat) (s : String) (i : Nat)
    (h : lookupIdx l base s = some i) : i < base + l.length := by
  induction l generalizing base with
  | nil => exact absurd h (by simp [lookupIdx])
  | cons t ts ih =>
    simp only [lookupIdx] at h
    split at h
    · simp only [Option.some.injEq] at h
      simp [← h]
    · have := ih (base + 1) h
      simp only [List.length_cons]
      omega

theorem lookupIdx_eq_none (l : List String) (base : Nat) (s : String)
    (h : s ∉ l) : lookupIdx l base s = none := by
  induction l generalizing base with
  | nil => rfl
  | cons t ts ih =>
    simp only [List.mem_cons, not_or] at h
    simp only [lookupIdx, if_neg h.1]
    exact ih (base + 1) h.2

theorem task_tokenizer_eq_none_of_underscore (s : String)
    (h : s.data[1]? = some '_') : task_tokenizer s = none := by
  simp only [task_tokenizer, tasks, lookupIdx]
  split_ifs with h1 h2 h3 h4 h5 h6 h7 h8 h9 <;>
    first
      | rfl
      | (subst_vars; exact absurd h (by decide))

theorem dictGet_dictSet_self (l : List (String × PyObj)) (k : String) (v : PyObj) :
    dictGet (dictSet l k v) k = some v := by
  induction l with
  | nil => simp [dictSet, dictGet]
  | cons p rest ih =>
    obtain ⟨k2, v2⟩ := p
    by_cases hk : k = k2
    · simp [dictSet, dictGet, hk]
    · simp [dictSet, dictGet, hk, ih]

theorem dictGet_dictSet_ne (l : List (String × PyObj)) (k kq : String) (v : PyObj)
    (h : kq ≠ k) : dictGet (dictSet l k v) kq = dictGet l kq := by
  induction l with
  | nil => simp [dictSet, dictGet, h]
  | cons p rest ih =>
    obtain ⟨k2, v2⟩ := p
    by_cases hk : k = k2
    · subst hk
      simp [dictSet, dictGet, h]
    · by_cases hq : kq = k2 <;> simp [dictSet, dictGet, hk, hq, ih]

theorem sample_start_lt (trajLen blockSize : Nat) (draw : Nat → Nat)
    (hlt : blockSize < trajLen) (hdraw : ∀ n, 1 ≤ n → draw n < n) :
    sample_start trajLen blockSize draw < trajLen - blockSize := by
  simp only [sample_start, if_neg (by omega : ¬ trajLen = blockSize)]
  exact hdraw _ (by omega)

theorem sample_start_surj (trajLen blockSize s : Nat) (hlt : blockSize < trajLen)
    (hs : s < trajLen - blockSize) :
    ∃ draw : Nat → Nat, (∀ n, 1 ≤ n → draw n < n) ∧
      sample_start trajLen blockSize draw = s := by
  refine ⟨fun n => min s (n - 1), fun n hn => by show min s (n - 1) < n; omega, ?_⟩
  simp only [sample_start, if_neg (by omega : ¬ trajLen = blockSize)]
  omega

/-! ### Claim theorems -/

/-- Claim C2: latest-action extraction.  For `index ∈ {0,1,2}` the extracted
slice index equals `index` (the extraction reads window position `index`),
and for `index ≥ 3` the slice index `-1` resolves to the last position of the
queried window regardless of the absolute value of `index`. -/
theorem C2_latest_action_extraction (index : Nat) (xs : List PyObj) :
    (index < 3 → pyGet (PyObj.arr xs) (slice_index index) = xs.get? index) ∧
      (3 ≤ index → 1 ≤ xs.length →
        pyGet (PyObj.arr xs) (slice_index index) = xs.get? (xs.length - 1)) := by
  constructor
  · intro h3
    have hsi : slice_index index = (index : Int) := by
      simp only [slice_index, if_neg (by omega : ¬ 3 ≤ index)]
    have hpi : pyIndex xs.length (index : Int) = (index : Int) := by
      simp only [pyIndex, if_neg (by omega : ¬ (index : Int) < 0)]
    rw [hsi]
    simp only [pyGet, hpi]
    by_cases hlt : index < xs.length
    · rw [dif_pos (⟨by omega, by exact_mod_cast hlt⟩ :
        0 ≤ (index : Int) ∧ (index : Int) < (xs.length : Int))]
      rw [List.get?_eq_get hlt]
      exact congrArg (fun f => some (xs.get f))
        (Fin.ext (by show ((index : Int)).toNat = index; omega))
    · rw [dif_neg (by push_neg; intro h0; omega)]
      symm
      rw [List.get?_eq_none]
      omega
  · intro h3 hlen
    have hsi : slice_index index = -1 := by simp only [slice_index, if_pos h3]
    have hpi : pyIndex xs.length (-1) = (xs.length : Int) - 1 := by
      simp only [pyIndex, if_pos (by omega : (-1 : Int) < 0)]
      omega
    rw [hsi]
    simp only [pyGet, hpi]
    rw [dif_pos (⟨by omega, by omega⟩ :
      0 ≤ (xs.length : Int) - 1 ∧ (xs.length : Int) - 1 < (xs.length : Int))]
    rw [List.get?_eq_get (by omega : xs.length - 1 < xs.length)]
    exact congrArg (fun f => some (xs.get f))
      (Fin.ext (by show ((xs.length : Int) - 1).toNat = xs.length - 1; omega))

/-- Witness for C2: at `index = 10` on the 4-length window `windowFour`, the
extraction reads position `3` (the last), and that position holds
`PyObj.leaf 3`. -/
theorem C2_latest_action_extraction_witness :
    (3 ≤ 10 ∧ 1 ≤ windowFour.length) ∧
      pyGet (PyObj.arr windowFour) (slice_index 10) =
        windowFour.get? (windowFour.length - 1) ∧
      windowFour.get? (windowFour.length - 1) = some (PyObj.leaf 3) :=
  ⟨⟨by omega, by decide⟩,
   (C2_latest_action_extraction 10 windowFour).2 (by omega) (by decide), rfl⟩

/-- Claim C3: for `traj_len > block_size`, the start offsets the sampler can
produce are exactly the integers of `[0, traj_len - block_size)`: every draw
allowed by the `np.random.randint(0, traj_len - block_size)` contract yields
such a start, and every such start is realised by some allowed draw. -/
theorem C3_start_offset_range (trajLen blockSize : Nat) (h : blockSize < trajLen) :
    (∀ draw : Nat → Nat, (∀ n, 1 ≤ n → draw n < n) →
        sample_start trajLen blockSize draw < trajLen - blockSize) ∧
      (∀ s, s < trajLen - blockSize →
        ∃ draw : Nat → Nat, (∀ n, 1 ≤ n → draw n < n) ∧
          sample_start trajLen blockSize draw = s) :=
  ⟨fun draw hd => sample_start_lt trajLen blockSize draw h hd,
   fun s hs => sample_start_surj trajLen blockSize s h hs⟩

/-- Witness for C3 at `traj_len = 5`, `block_size = 3` with the draw that
returns `min 1 (n - 1)`: the start is confined to `[0, 2)` and equals `1`. -/
theorem C3_start_offset_range_witness :
    3 < 5 ∧ sample_start 5 3 (fun n => min 1 (n - 1)) < 5 - 3 ∧
      sample_start 5 3 (fun n => min 1 (n - 1)) = 1 :=
  ⟨by omega,
   (C3_start_offset_range 5 3 (by omega)).1 (fun n => min 1 (n - 1))
     (fun n hn => by show min 1 (n - 1) < n; omega),
   by decide⟩

/-- Counterexample to claim C4 as stated: for a trajectory of length 5 with
`block_size = 3`, the start offset `2` is NOT a possible outcome, because
`np.random.randint(0, 5 - 3)` only yields values below `2`. -/
theorem C4_small_traj_starts_cex :
    ¬ ∃ draw : Nat → Nat, (∀ n, 1 ≤ n → draw n < n) ∧
        sample_start 5 3 draw = 2 := by
  rintro ⟨draw, hd, h⟩
  have h2 : draw 2 < 2 := hd 2 (by omega)
  simp only [sample_start] at h
  rw [if_neg (by omega : ¬ (5 : Nat) = 3)] at h
  have h23 : (5 : Nat) - 3 = 2 := rfl
  rw [h23] at h
  omega

/-- Claim C4, amended: for a trajectory of length 5 sampled with
`block_size = 3`, every sample the window sampler can produce has a start
offset in `{0, 1}`, and each of those two values is a possible outcome of the
draw (the last valid window, start `2`, is never produced). -/
theorem C4_small_traj_starts (draw : Nat → Nat) (hd : ∀ n, 1 ≤ n → draw n < n) :
    sample_start 5 3 draw < 2 ∧
      ∀ s, s < 2 → ∃ d : Nat → Nat, (∀ n, 1 ≤ n → d n < n) ∧
        sample_start 5 3 d = s :=
  ⟨sample_start_lt 5 3 draw (by omega) hd,
   fun s hs => sample_start_surj 5 3 s (by omega) (by omega)⟩

/-- Witness for C4 (amended) with the constant-zero draw. -/
theorem C4_small_traj_starts_witness :
    (∀ n : Nat, 1 ≤ n → (fun _ : Nat => 0) n < n) ∧
      (sample_start 5 3 (fun _ => 0) < 2 ∧
        ∀ s, s < 2 → ∃ d : Nat → Nat, (∀ n, 1 ≤ n → d n < n) ∧
          sample_start 5 3 d = s) :=
  ⟨fun n hn => hn, C4_small_traj_starts (fun _ => 0) (fun n hn => hn)⟩

/-- Claim C7: the task encoder is a pure lookup: encoding the same string
twice yields the same id, every id it returns lies in `[0, 9)` where
`9 = tasks.length` is the number of tasks, and a string outside the fixed
enumeration yields no id at all (Python KeyError), rather than a new id. -/
theorem C7_task_encoder :
    (∀ s : String, task_tokenizer s = task_tokenizer s) ∧
      (∀ s i, task_tokenizer s = some i → i < tasks.length) ∧
      (∀ s, s ∉ tasks → task_tokenizer s = none) :=
  ⟨fun _ => rfl,
   fun s i h => by have := lookupIdx_lt tasks 0 s i h; omega,
   fun s h => lookupIdx_eq_none tasks 0 s h⟩

/-- Witness for C7: `"2x_5"` encodes to `0 < 9`, and the out-of-enumeration
string `"9x_5"` encodes to `none`. -/
theorem C7_task_encoder_witness :
    (task_tokenizer "2x_5" = some 0 ∧ 0 < tasks.length) ∧
      ("9x_5" ∉ tasks ∧ task_tokenizer "9x_5" = none) :=
  ⟨⟨by decide, C7_task_encoder.2.1 "2x_5" 0 (by decide)⟩,
   ⟨by decide, C7_task_encoder.2.2 "9x_5" (by decide)⟩⟩

/-- Claim C8: `EvaluationDataset.get_eval_obs` always fails: `__getitem__`
hands it a 4-tuple `(states, rtg, actions, task)` which it unpacks into only
three names, so the unpacking raises (ValueError, here `none`) before any
batched observation is returned. -/
theorem C8_get_eval_obs_fails (states rtg actions task : PyObj) :
    get_eval_obs states rtg actions task = none := rfl

/-- Claim C9: for any acceleration metadata string of the form digit + `'x'`
(the form the task table encodes) the training dataset's key
`acceleration[0] + '_' + noise_level` contains `'_'` where every table entry
has `'x'`, so the task lookup fails; while the evaluation dataset's
reconstruction `task_str[0] + 'x' + task_str[1:]` of the filename-extracted
`\d+_\d+` string lands exactly on the table entries. -/
theorem C9_task_key_mismatch :
    (∀ (d : Char) (noise : String), d.isDigit = true →
        task_tokenizer (trainTaskKey (String.mk [d, 'x']) noise) = none) ∧
      ∀ t ∈ tasks, evalTaskKey (String.mk (t.data.take 1 ++ t.data.drop 2)) = t ∧
        (task_tokenizer t).isSome = true := by
  constructor
  · intro d noise _
    apply task_tokenizer_eq_none_of_underscore
    obtain ⟨nd⟩ := noise
    show (String.mk [d] ++ "_" ++ String.mk nd).data[1]? = some '_'
    rw [String.data_append, String.data_append,
      (by decide : ("_" : String).data = ['_'])]
    simp
  · intro t ht
    fin_cases ht <;> exact ⟨by decide, by decide⟩

/-- Witness for C9: acceleration `"2x"` with noise `"5"` gives the failing
training key, and the evaluation reconstruction of `"2_5"` hits `"2x_5"`. -/
theorem C9_task_key_mismatch_witness :
    (Char.isDigit '2' = true ∧
        task_tokenizer (trainTaskKey (String.mk ['2', 'x']) "5") = none) ∧
      (("2x_5" : String) ∈ tasks ∧
        evalTaskKey (String.mk (("2x_5" : String).data.take 1 ++
          ("2x_5" : String).data.drop 2)) = "2x_5") :=
  ⟨⟨by decide, C9_task_key_mismatch.1 '2' "5" (by decide)⟩,
   ⟨by decide, (C9_task_key_mismatch.2 "2x_5" (by decide)).1⟩⟩

/-- Claim C10: `_get_latest_action` leaves the caller's bundle with `'T'`,
`'mu'` and `'sigma_d'` holding exactly the single `[0][slice_index]` slices
of their former values, and every other key unchanged. -/
theorem C10_latest_action_frame (action_dict : List (String × PyObj)) (preds : PyObj)
    (index : Nat) (out : List (String × PyObj) × PyObj)
    (h : get_latest_action action_dict preds index = some out) :
    dictGet out.1 "T" = (dictGet action_dict "T").bind (extract2 (slice_index index)) ∧
      dictGet out.1 "mu" =
        (dictGet action_dict "mu").bind (extract2 (slice_index index)) ∧
      dictGet out.1 "sigma_d" =
        (dictGet action_dict "sigma_d").bind (extract2 (slice_index index)) ∧
      ∀ k, k ≠ "T" → k ≠ "mu" → k ≠ "sigma_d" →
        dictGet out.1 k = dictGet action_dict k := by
  simp only [get_latest_action] at h
  split at h
  case _ preds2 t mu sd heq1 heq2 heq3 heq4 =>
    injection h with h2
    subst h2
    refine ⟨?_, ?_, ?_, ?_⟩
    · rw [dictGet_dictSet_ne _ _ _ _ (by decide), dictGet_dictSet_ne _ _ _ _ (by decide),
        dictGet_dictSet_self, heq2]
    · rw [dictGet_dictSet_ne _ _ _ _ (by decide), dictGet_dictSet_self, heq3]
    · rw [dictGet_dictSet_self, heq4]
    · intro k h1 h2 h3
      rw [dictGet_dictSet_ne _ _ _ _ h3, dictGet_dictSet_ne _ _ _ _ h2,
        dictGet_dictSet_ne _ _ _ _ h1]
  case _ => exact Option.noConfusion h

/-- Witness for C10 on `sampleBundle` with `index = 0`: the three action
fields are reduced to their position-0 slices and the extra field `x0` is
untouched. -/
theorem C10_latest_action_frame_witness :
    get_latest_action sampleBundle (PyObj.arr [PyObj.arr [PyObj.leaf 8, PyObj.leaf 9]]) 0 =
        some (sampleBundleOut, PyObj.leaf 8) ∧
      dictGet sampleBundleOut "x0" = dictGet sampleBundle "x0" :=
  ⟨rfl,
   (C10_latest_action_frame sampleBundle (PyObj.arr [PyObj.arr [PyObj.leaf 8, PyObj.leaf 9]])
     0 (sampleBundleOut, PyObj.leaf 8) rfl).2.2.2 "x0" (by decide) (by decide) (by decide)⟩

theorem getD_pad_section {α : Type} (xs : List α) (p : Nat) (z d : α) (i : Nat)
    (hi : xs.length ≤ i) (hip : i < xs.length + p) :
    (xs ++ List.replicate p z).getD i d = z := by
  rw [List.getD_append_right _ _ _ _ hi, getD_replicate_of_lt _ _ _ _ (by omega)]

/-- Claim C5: for `traj_len < block_size` the returned window has a mask of
exactly `traj_len` ones followed by zeros, zero-filled padded regions in
states, actions and returns, and absolute timesteps `0 .. block_size - 1`. -/
theorem C5_padded_window (blockSize : Nat) (rtgScale : ℚ) (rtgSeq : List ℚ)
    (actionSeqs stateSeqs : List (List ℚ)) (taskId : Nat)
    (h1 : 1 ≤ rtgSeq.length) (h2 : rtgSeq.length < blockSize)
    (hst : stateSeqs.length = rtgSeq.length) :
    (∀ i, i < blockSize →
      (paddedWindow blockSize rtgScale rtgSeq actionSeqs stateSeqs taskId).traj_masks.getD
          i 0 = if i < rtgSeq.length then 1 else 0) ∧
      (∀ i, rtgSeq.length ≤ i → i < blockSize →
        (∀ q ∈ (paddedWindow blockSize rtgScale rtgSeq actionSeqs
            stateSeqs taskId).states.getD i [], q = 0) ∧
        (∀ q ∈ (paddedWindow blockSize rtgScale rtgSeq actionSeqs
            stateSeqs taskId).actions.getD i [], q = 0) ∧
        (∀ q ∈ (paddedWindow blockSize rtgScale rtgSeq actionSeqs
            stateSeqs taskId).rtg.getD i [], q = 0)) ∧
      (paddedWindow blockSize rtgScale rtgSeq actionSeqs stateSeqs
        taskId).timesteps = List.range blockSize ∧
      (∀ i, i < blockSize →
        (paddedWindow blockSize rtgScale rtgSeq actionSeqs stateSeqs
          taskId).timesteps.getD i blockSize = i) := by
  have hmask : (paddedWindow blockSize rtgScale rtgSeq actionSeqs stateSeqs
      taskId).traj_masks =
      List.replicate rtgSeq.length 1 ++ List.replicate (blockSize - rtgSeq.length) 0 := rfl
  have hstates : (paddedWindow blockSize rtgScale rtgSeq actionSeqs stateSeqs
      taskId).states =
      get_states stateSeqs 0 rtgSeq.length (blockSize - rtgSeq.length) := rfl
  have hactions : (paddedWindow blockSize rtgScale rtgSeq actionSeqs stateSeqs
      taskId).actions =
      get_actions actionSeqs 0 rtgSeq.length (blockSize - rtgSeq.length) := rfl
  have hrtg : (paddedWindow blockSize rtgScale rtgSeq actionSeqs stateSeqs
      taskId).rtg =
      concat_pad (rtgSeq.map fun q => [q / rtgScale]) (blockSize - rtgSeq.length) := rfl
  have htime : (paddedWindow blockSize rtgScale rtgSeq actionSeqs stateSeqs
      taskId).timesteps = List.range blockSize := rfl
  refine ⟨?_, ?_, htime, ?_⟩
  · intro i hi
    rw [hmask]
    by_cases hil : i < rtgSeq.length
    · rw [List.getD_append _ _ _ _ (by simpa using hil),
        getD_replicate_of_lt _ _ _ _ hil, if_pos hil]
    · have hl : rtgSeq.length ≤ i := by omega
      rw [List.getD_append_right _ _ _ _ (by simpa using hl)]
      simp only [List.length_replicate]
      rw [getD_replicate_of_lt _ _ _ _ (by omega), if_neg hil]
  · intro i hil hib
    refine ⟨?_, ?_, ?_⟩
    · rw [hstates]
      simp only [get_states, Nat.sub_zero, List.drop_zero]
      have hs1 : ((stateSeqs.take rtgSeq.length).map fun v =>
          v.map fun q => q / 255).length = rtgSeq.length := by
        simp [hst]
      have hrw := getD_pad_section
        ((stateSeqs.take rtgSeq.length).map fun v => v.map fun q => q / 255)
        (blockSize - rtgSeq.length) (List.replicate (stateSeqs.headD []).length 0) [] i
        (by rw [hs1]; exact hil) (by rw [hs1]; omega)
      rw [hrw]
      intro q hq
      exact List.eq_of_mem_replicate hq
    · rw [hactions]
      simp only [get_actions, Nat.sub_zero, Nat.zero_add]
      have ha1 : ((List.range rtgSeq.length).map fun t =>
          actionSeqs.map fun s => s.getD t 0).length = rtgSeq.length := by
        simp
      have hrw := getD_pad_section
        ((List.range rtgSeq.length).map fun t => actionSeqs.map fun s => s.getD t 0)
        (blockSize - rtgSeq.length) (List.replicate actionSeqs.length 0) [] i
        (by rw [ha1]; exact hil) (by rw [ha1]; omega)
      rw [hrw]
      intro q hq
      exact List.eq_of_mem_replicate hq
    · rw [hrtg]
      simp only [concat_pad]
      have hr1 : (rtgSeq.map fun q => [q / rtgScale]).length = rtgSeq.length := by
        simp
      have hrw := getD_pad_section (rtgSeq.map fun q => [q / rtgScale])
        (blockSize - rtgSeq.length)
        (List.replicate ((rtgSeq.map fun q => [q / rtgScale]).headD []).length 0) [] i
        (by rw [hr1]; exact hil) (by rw [hr1]; omega)
      rw [hrw]
      intro q hq
      exact List.eq_of_mem_replicate hq
  · intro i hi
    rw [htime, List.getD_eq_getElem _ _ (by simpa using hi), List.getElem_range]

/-- Witness for C5 at `traj_len = 2`, `block_size = 5`: mask `[1,1,0,0,0]`,
timesteps `[0,1,2,3,4]`, and the elementwise mask property instantiated. -/
theorem C5_padded_window_witness :
    (1 ≤ ([3, 4] : List ℚ).length ∧ ([3, 4] : List ℚ).length < 5 ∧
        ([[1], [2]] : List (List ℚ)).length = ([3, 4] : List ℚ).length) ∧
      (paddedWindow 5 1 [3, 4] [[1, 2]] [[1], [2]] 0).traj_masks = [1, 1, 0, 0, 0] ∧
      (paddedWindow 5 1 [3, 4] [[1, 2]] [[1], [2]] 0).timesteps = [0, 1, 2, 3, 4] ∧
      ∀ i, i < 5 → (paddedWindow 5 1 [3, 4] [[1, 2]] [[1], [2]] 0).traj_masks.getD i 0 =
        if i < ([3, 4] : List ℚ).length then 1 else 0 :=
  ⟨⟨by decide, by decide, by decide⟩, by decide, by decide,
   (C5_padded_window 5 1 [3, 4] [[1, 2]] [[1], [2]] 0 (by decide) (by decide)
     (by decide)).1⟩

theorem runEvalState_evalRtg_lt (scale : ℚ) (reward : Nat → ℚ) (doneSeq : Nat → Bool)
    (maxStep : Nat) :
    ∀ fuel time s t, t < time →
      (runEvalState scale reward doneSeq maxStep fuel time s).evalRtg t =
        s.evalRtg t := by
  intro fuel
  induction fuel with
  | zero => intro time s t ht; rfl
  | succ n ih =>
    intro time s t ht
    simp only [runEvalState]
    split
    · rfl
    · rw [ih (time + 1) _ t (by omega)]
      simp only [evalWrite]
      rw [if_neg (by omega)]

theorem runEvalState_evalRtg_written (scale : ℚ) (reward : Nat → ℚ)
    (doneSeq : Nat → Bool) (maxStep : Nat) :
    ∀ fuel time s, 1 ≤ time → s.oldReward = reward (time - 1) →
      (∀ i, i < time → s.evalRtg i = rtgRec scale reward i) →
      ∀ t, time ≤ t → t < time + fuel →
        (∀ u, time ≤ u → u ≤ t → doneSeq u = false ∧ u ≠ maxStep) →
        (runEvalState scale reward doneSeq maxStep fuel time s).evalRtg t =
          rtgRec scale reward t := by
  intro fuel
  induction fuel with
  | zero => intro time s _ _ _ t ht1 ht2 _; omega
  | succ n ih =>
    intro time s htime hold hinv t ht1 ht2 hact
    have hu := hact time le_rfl ht1
    have hcond : (doneSeq time || time == maxStep) = false := by
      simp [hu.1, hu.2]
    simp only [runEvalState]
    rw [hcond, if_neg (by simp)]
    have hwrite : (evalWrite scale reward time s).evalRtg time =
        rtgRec scale reward time := by
      obtain ⟨tm, rfl⟩ : ∃ tm, time = tm + 1 := ⟨time - 1, by omega⟩
      simp only [evalWrite, if_pos rfl, Nat.add_sub_cancel]
      rw [hinv tm (by omega), hold]
      simp [rtgRec, Nat.add_sub_cancel]
    have hinv2 : ∀ i, i < time + 1 →
        (evalWrite scale reward time s).evalRtg i = rtgRec scale reward i := by
      intro i hi
      by_cases hit : i = time
      · subst hit; exact hwrite
      · simp only [evalWrite]
        rw [if_neg hit]
        exact hinv i (by omega)
    rcases Nat.eq_or_lt_of_le ht1 with heq | hlt
    · subst heq
      rw [runEvalState_evalRtg_lt scale reward doneSeq maxStep n (time + 1) _ time
        (by omega)]
      exact hinv2 time (by omega)
    · exact ih (time + 1) (evalWrite scale reward time s) (by omega)
        (by simp [evalWrite]) hinv2 t hlt (by omega)
        (fun u hu1 hu2 => hact u (by omega) hu2)

/-- Claim C6: at every step of the rollout at which the loop writes the
context buffer (no earlier termination, `t < max_step`), the written RTG
entry equals the previous step's entry minus
`(reward − previous_reward) / rtg_scale`, where `reward t` is the reward
observed at step `t` and `reward 0` the initial reward of line 166. -/
theorem C6_rtg_bookkeeping (scale : ℚ) (reward : Nat → ℚ) (doneSeq : Nat → Bool)
    (maxStep t : Nat) (h1 : 1 ≤ t) (h2 : t < maxStep)
    (h3 : ∀ u, 1 ≤ u → u ≤ t → doneSeq u = false) :
    (runEval scale reward doneSeq maxStep).evalRtg t =
      (runEval scale reward doneSeq maxStep).evalRtg (t - 1) -
        (reward t - reward (t - 1)) / scale := by
  have hmain : ∀ u, u ≤ t → (runEval scale reward doneSeq maxStep).evalRtg u =
      rtgRec scale reward u := by
    intro u hu
    rcases Nat.eq_zero_or_pos u with h0 | h0
    · subst h0
      simp only [runEval]
      rw [runEvalState_evalRtg_lt scale reward doneSeq maxStep maxStep 1 _ 0
        (by omega)]
      rfl
    · simp only [runEval]
      exact runEvalState_evalRtg_written scale reward doneSeq maxStep maxStep 1 _
        (by omega) rfl
        (fun i hi => by
          have hz : i = 0 := by omega
          subst hz
          rfl)
        u h0 (by omega)
        (fun v hv1 hv2 => ⟨h3 v hv1 (by omega), by omega⟩)
  rw [hmain t le_rfl, hmain (t - 1) (by omega)]
  obtain ⟨tm, rfl⟩ : ∃ tm, t = tm + 1 := ⟨t - 1, by omega⟩
  simp [rtgRec, Nat.add_sub_cancel]

/-- Witness for C6: 30-step rollout, scale 1, reward sequence `n ↦ n`, no
early termination, checked at step `t = 2`. -/
theorem C6_rtg_bookkeeping_witness :
    (1 ≤ 2 ∧ 2 < 30 ∧ ∀ u : Nat, 1 ≤ u → u ≤ 2 → (fun _ : Nat => false) u = false) ∧
      (runEval 1 (fun n => (n : ℚ)) (fun _ => false) 30).evalRtg 2 =
        (runEval 1 (fun n => (n : ℚ)) (fun _ => false) 30).evalRtg (2 - 1) -
          (((2 : Nat) : ℚ) - (((2 : Nat) - 1 : Nat) : ℚ)) / 1 :=
  ⟨⟨by omega, by omega, fun _ _ _ => rfl⟩,
   C6_rtg_bookkeeping 1 (fun n => (n : ℚ)) (fun _ => false) 30 2 (by omega) (by omega)
     (fun _ _ _ => rfl)⟩

theorem evalQueries_no_done (maxStep contextLength : Nat) :
    ∀ fuel time, time ≤ maxStep → maxStep ≤ time + fuel →
      evalQueries (fun _ => false) maxStep contextLength fuel time =
        (List.range' time (maxStep - time)).map (querySlice contextLength) := by
  intro fuel
  induction fuel with
  | zero =>
    intro time hle hge
    have he : time = maxStep := by omega
    subst he
    simp [evalQueries]
  | succ n ih =>
    intro time hle hge
    simp only [evalQueries, Bool.false_or]
    by_cases he : time = maxStep
    · subst he
      simp
    · rw [if_neg (by simp [he])]
      rw [ih (time + 1) (by omega) (by omega)]
      have hms : maxStep - time = (maxStep - (time + 1)) + 1 := by omega
      rw [hms, List.range'_succ, List.map_cons]

/-- Counterexample to claim C1 as stated: in the full 30-step rollout with
`context_length = 4` and 30-slot buffers, the in-loop policy query at
`time = 1` is the hardcoded slice `[0, 4)` (src/train.py line 188), whose
length is `4`, not `min(context_length, time) = 1`. -/
theorem C1_context_window_cex :
    (evalTrace (fun _ => false) 30 4).get? 1 = some (0, 4) ∧
      sliceLen 30 (0, 4) ≠ min 4 1 := ⟨by decide, by decide⟩

/-- Claim C1, amended: for `max_step = 30`, `context_length = 4` and buffers
of `max_timesteps ≥ 29` slots, the queries of a full (never-done) rollout are
the initial `[0,4)` slice followed by one query per `time ∈ [1, 29]`, and
EVERY such context window has length exactly `context_length = 4` — also for
`time < context_length`, where the code passes the hardcoded first four
buffer slots (including not-yet-written zero entries) instead of a window of
length `time`; for `time ≥ context_length` the slice `[time-4, time)` has
length `context_length` as the claim states. -/
theorem C1_context_window (n : Nat) (hn : 29 ≤ n) :
    evalTrace (fun _ => false) 30 4 =
      (0, 4) :: (List.range' 1 29).map (querySlice 4) ∧
      ∀ p ∈ evalTrace (fun _ => false) 30 4, sliceLen n p = 4 := by
  have htr : evalTrace (fun _ => false) 30 4 =
      (0, 4) :: (List.range' 1 29).map (querySlice 4) := by
    simp only [evalTrace]
    rw [evalQueries_no_done 30 4 30 1 (by omega) (by omega)]
  refine ⟨htr, ?_⟩
  rw [htr]
  intro p hp
  simp only [List.mem_cons, List.mem_map] at hp
  rcases hp with hp | ⟨t, ht, rfl⟩
  · subst hp
    simp only [sliceLen]
    omega
  · have ht2 : 1 ≤ t ∧ t < 30 := by
      have := List.mem_range'_1.mp ht
      omega
    by_cases h4 : t < 4
    · simp only [querySlice, if_pos h4, sliceLen]
      omega
    · simp only [querySlice, if_neg h4, sliceLen]
      omega

/-- Witness for C1 (amended): the initial query slice has length 4 on
30-slot buffers. -/
theorem C1_context_window_witness :
    29 ≤ 30 ∧ sliceLen 30 (0, 4) = 4 :=
  ⟨by omega, (C1_context_window 30 (by omega)).2 (0, 4) (by decide)⟩
